import Mathlib

/-!
# Timestamp flag values (`flag_timestamp.go`)

A shallow embedding of the timestamp value layer of the `cli` package:
the `timestampValue` object, its creator (`Create`, `ToString`,
`newTimestamp`), the `flag.Value` methods (`Set`, `Value`, `Get`) and the
typed lookup (`Command.Timestamp`, `lookupTimestamp`).

Go pointers are addresses into an explicit heap; a nil pointer is `none`.
A nil dereference is the only run-time failure of this file and is the
`Panic` outcome of an operation. The date/time primitives of Go's `time`
package (`time.Parse`, `time.ParseInLocation`, the `%v` rendering) are not
part of the package: they are a parameter (`TimeLib`) of every operation
that calls them.
-/

namespace Cli

/-! ## Data model -/

/-- An address in one of the heap's stores. -/
abbrev Addr := Nat

/-- A Go pointer: `none` is nil. -/
abbrev Ptr := Option Addr

/-- The pointee of a `*time.Location`: a named zone with the offset, in seconds
east of UTC, in force before its first transition, and its transitions in
increasing order: each gives the instant (seconds since January 1, year 1,
00:00:00 UTC) from which an offset is in force. A zone without transitions is
what `time.FixedZone(name, offset)` builds; a zone with daylight saving time
has two transitions a year. -/
structure Location where
  name : String
  offset : Int
  tx : List (Int × Int)
deriving DecidableEq, Repr

/-- The offset in force at instant `sec` among the transitions still to scan,
with the start and the end of its period (`none` is unbounded); `offset` and
`start` are those of the period reached so far. -/
def Location.lookupFrom (offset : Int) (start : Option Int) :
    List (Int × Int) → Int → Int × Option Int × Option Int
  | [], _ => (offset, start, none)
  | tr :: rest, sec =>
    if sec < tr.1 then (offset, start, some tr.1)
    else Location.lookupFrom tr.2 (some tr.1) rest sec

/-- Method `Location.lookup`: the offset in force at instant `sec`, with the
start and the end of the period it is in force. -/
def Location.lookup (l : Location) (sec : Int) : Int × Option Int × Option Int :=
  Location.lookupFrom l.offset none l.tx sec

/-- A `time.Time` value: the absolute instant as seconds and nanoseconds since
January 1, year 1, 00:00:00 UTC, and the location it is shown in (`none` is
UTC, as in Go). -/
structure Time where
  sec : Int
  nsec : Nat
  loc : Option Location
deriving DecidableEq, Repr

/-- The zero value `time.Time{}`. -/
def Time.zero : Time := { sec := 0, nsec := 0, loc := none }

/-- Method `Time.IsZero`: whether the time is the zero instant, January 1, year 1,
00:00:00 UTC. The location plays no part. -/
def Time.IsZero (t : Time) : Bool := t.sec == 0 && t.nsec == 0

/-- The wall-clock reading of a time: seconds since January 1, year 1,
00:00:00 on the clock of its own location, that is the instant plus the offset
in force at that instant. Go derives year, month, day, hour, minute and second
from this number alone. -/
def Time.wallSeconds (t : Time) : Int :=
  t.sec + (match t.loc with
    | none => 0
    | some l => (l.lookup t.sec).1)

/-- Method `Time.Equal`: whether two times are the same absolute instant,
whatever their locations. -/
def Time.Equal (t u : Time) : Bool := t.sec == u.sec && t.nsec == u.nsec

/-- Whether two times have the same wall-clock fields (year, month, day, hour,
minute, second), each on the clock of its own location. -/
def Time.sameWallClock (t u : Time) : Bool := t.wallSeconds == u.wallSeconds

/-- A Go `error` value. -/
structure GoError where
  msg : String
deriving DecidableEq, Repr

/-- The primitives of Go's `time` and `fmt` packages used by this file. Each
parser returns the pair `(time, err)` of the Go function; `err = none` is a nil
error. `Sprintv` is `fmt.Sprintf("%v", b)`. -/
structure TimeLib where
  Parse : String → String → Time × Option GoError
  ParseInLocation : String → String → Location → Time × Option GoError
  Sprintv : Time → String

/-- Type `TimestampConfig` defines the config for timestamp flags. -/
structure TimestampConfig where
  Timezone : Option Location
  Layout : String
deriving DecidableEq, Repr

/-- The `timestampValue` struct. -/
structure timestampValue where
  timestamp : Ptr
  hasBeenSet : Bool
  layout : String
  location : Option Location
deriving DecidableEq, Repr

/-- The heap: the store of `time.Time` cells, the store of `timestampValue`
objects, and the next free address of each. -/
structure Heap where
  times : Addr → Time
  values : Addr → timestampValue
  nextTime : Addr
  nextValue : Addr

/-- The only run-time failure: dereferencing a nil pointer. -/
inductive Panic where
  | nilDereference
deriving DecidableEq, Repr

/-- An interface value (`Value`, `flag.Value`) by dynamic type: the nil
interface, a `*timestampValue` (possibly a nil pointer of that type), or a
value of any other flag kind. -/
inductive Value where
  | nil
  | timestampValue (t : Ptr)
  | other (kind : String)
deriving DecidableEq, Repr

/-- A `flag.Flag`. -/
structure Flag where
  Name : String
  Usage : String
  Value : Value
  DefValue : String
deriving DecidableEq, Repr

/-- A `flag.FlagSet`, reduced to its `formal` map from names to flags. -/
structure FlagSet where
  formal : String → Option Flag

/-- Method `FlagSet.Lookup` returns the flag registered under `name`, or nil. -/
def FlagSet.Lookup (f : FlagSet) (name : String) : Option Flag := f.formal name

/-- A `Command`, reduced to what this file reads: its name, and the
resolution of a flag name to the flag set that owns it (`lookupFlagSet`, the
command-tree traversal, which lives in another file of the package). -/
structure Command where
  Name : String
  lookupFlagSet : String → Option FlagSet

/-- A line sent to `tracef`, the diagnostic sink. -/
inductive TraceEvent where
  | available (name : String) (v : Ptr) (cmdName : String)
  | notAvailable (name : String) (cmdName : String)
deriving DecidableEq, Repr

/-! ## Heap operations -/

/-- Store `v` in the time cell at `p`. -/
def Heap.writeTime (h : Heap) (p : Addr) (v : Time) : Heap :=
  { h with times := Function.update h.times p v }

/-- Store `v` in the object at `a`. -/
def Heap.writeValue (h : Heap) (a : Addr) (v : timestampValue) : Heap :=
  { h with values := Function.update h.values a v }

/-- Allocate a fresh time cell holding `v`. -/
def Heap.allocTime (h : Heap) (v : Time) : Heap × Addr :=
  ({ h with times := Function.update h.times h.nextTime v, nextTime := h.nextTime + 1 },
    h.nextTime)

/-- Allocate a fresh `timestampValue` object holding `v`. -/
def Heap.allocValue (h : Heap) (v : timestampValue) : Heap × Addr :=
  ({ h with values := Function.update h.values h.nextValue v, nextValue := h.nextValue + 1 },
    h.nextValue)

/-! ## The creator: `Create`, `ToString`, `newTimestamp` -/

/-- Method `timestampValue.Create`: `*p = val`, then a new object owning `p` with the
layout and timezone of `c`. -/
def timestampValue.Create (_i : timestampValue) (h : Heap) (val : Time) (p : Ptr)
    (c : TimestampConfig) : Except Panic (Heap × Value) :=
  match p with
  | none => .error .nilDereference
  | some cell =>
    let h1 := h.writeTime cell val
    let r := h1.allocValue
      { timestamp := some cell, hasBeenSet := false, layout := c.Layout, location := c.Timezone }
    .ok (r.1, Value.timestampValue (some r.2))

/-- Method `timestampValue.ToString`: empty for a zero time, `%v` otherwise. -/
def timestampValue.ToString (lib : TimeLib) (_i : timestampValue) (b : Time) : String :=
  if b.IsZero then "" else lib.Sprintv b

/-- Function `newTimestamp`: a new object whose cell is a fresh copy of `timestamp`; the
other fields have their zero values. -/
def newTimestamp (h : Heap) (timestamp : Time) : Heap × Ptr :=
  let r := h.allocTime timestamp
  let r2 := r.1.allocValue
    { timestamp := some r.2, hasBeenSet := false, layout := "", location := none }
  (r2.1, some r2.2)

/-! ## The `flag.Value` methods -/

/-- Method `timestampValue.Set`: parse `value` with the object's layout (in its
location when one is set); on an error return it, otherwise store the time in
the cell (when there is one) and mark the object as set. -/
def timestampValue.Set (lib : TimeLib) (h : Heap) (t : Ptr) (value : String) :
    Except Panic (Heap × Option GoError) :=
  match t with
  | none => .error .nilDereference
  | some a =>
    let r := match (h.values a).location with
      | some loc => lib.ParseInLocation (h.values a).layout value loc
      | none => lib.Parse (h.values a).layout value
    match r.2 with
    | some err => .ok (h, some err)
    | none =>
      let h1 := match (h.values a).timestamp with
        | some cell => h.writeTime cell r.1
        | none => h
      .ok (h1.writeValue a { h1.values a with hasBeenSet := true }, none)

/-- Method `timestampValue.Value` returns the pointer to the destination cell. -/
def timestampValue.Value (h : Heap) (t : Ptr) : Except Panic Ptr :=
  match t with
  | none => .error .nilDereference
  | some a => .ok (h.values a).timestamp

/-- Method `timestampValue.Get` returns `*t.timestamp`. -/
def timestampValue.Get (h : Heap) (t : Ptr) : Except Panic Time :=
  match t with
  | none => .error .nilDereference
  | some a =>
    match (h.values a).timestamp with
    | none => .error .nilDereference
    | some cell => .ok (h.times cell)

/-! ## The typed lookup -/

/-- Function `lookupTimestamp`: the cell pointer of the `*timestampValue` registered
under `name` in `set`, or nil; with the line it traces. -/
def lookupTimestamp (h : Heap) (name : String) (set : Option FlagSet) (cmdName : String) :
    Except Panic (Ptr × List TraceEvent) :=
  match set with
  | none => .error .nilDereference
  | some fs =>
    match fs.Lookup name with
    | some fl =>
      match fl.Value with
      | Value.timestampValue tv =>
        match timestampValue.Value h tv with
        | .error e => .error e
        | .ok v => .ok (v, [TraceEvent.available name v cmdName])
      | _ => .ok (none, [TraceEvent.notAvailable name cmdName])
    | none => .ok (none, [TraceEvent.notAvailable name cmdName])

/-- Method `Command.Timestamp` gets the timestamp from a flag name. -/
def Command.Timestamp (cmd : Command) (h : Heap) (name : String) :
    Except Panic (Ptr × List TraceEvent) :=
  match cmd.lookupFlagSet name with
  | some fs => lookupTimestamp h name (some fs) cmd.Name
  | none => .ok (none, [])

/-! ## Reference notions used by the statements -/

/-- The reference parse of `value` for a layout and an optional location:
`time.ParseInLocation(layout, value, location)` when a location is configured,
`time.Parse(layout, value)` otherwise. -/
def referenceParse (lib : TimeLib) (layout : String) (location : Option Location)
    (value : String) : Time × Option GoError :=
  match location with
  | some loc => lib.ParseInLocation layout value loc
  | none => lib.Parse layout value

/-- Whether `value` matches the layout: the reference parse reports no error. -/
def parses (lib : TimeLib) (layout : String) (location : Option Location)
    (value : String) : Bool :=
  (referenceParse lib layout location value).2.isNone

/-- The parse result of the last text of the sequence that parses, or `d` when
none does. -/
def lastParsed (lib : TimeLib) (layout : String) (location : Option Location) (d : Time)
    (texts : List String) : Time :=
  match texts.reverse.find? (parses lib layout location) with
  | some s => (referenceParse lib layout location s).1
  | none => d

/-- One `Set` call per text, in order, on the object at `t`, whatever each call
returns; the result is the final heap and the error returned by each call. -/
def SetAll (lib : TimeLib) (h : Heap) (t : Ptr) :
    List String → Except Panic (Heap × List (Option GoError))
  | [] => .ok (h, [])
  | s :: rest =>
    match timestampValue.Set lib h t s with
    | .error e => .error e
    | .ok r =>
      match SetAll lib r.1 t rest with
      | .error e => .error e
      | .ok r2 => .ok (r2.1, r.2 :: r2.2)

/-! ## A reference instance of the time primitives

The statements below hold for every `TimeLib`. To run them on concrete inputs
this section gives one instance, for the date layout `"2006-01-02"`: four year
digits, two month digits and two day digits of a valid calendar date. -/

/-- Whether `y` is a leap year of the proleptic Gregorian calendar. -/
def isLeapYear (y : Int) : Bool := y % 4 == 0 && (y % 100 != 0 || y % 400 == 0)

/-- The number of days of month `m` (1 to 12) of year `y`. -/
def daysIn (y : Int) (m : Nat) : Nat :=
  if m == 2 then (if isLeapYear y then 29 else 28)
  else if m == 4 || m == 6 || m == 9 || m == 11 then 30
  else 31

/-- Days from January 1 of year 1 to January 1 of year `y`. -/
def daysBeforeYear (y : Int) : Int :=
  365 * (y - 1) + (y - 1) / 4 - (y - 1) / 100 + (y - 1) / 400

/-- Days from January 1 of year `y` to the first day of month `m` of that year. -/
def daysBeforeMonth (y : Int) (m : Nat) : Nat :=
  ((List.range (m - 1)).map (fun k => daysIn y (k + 1))).sum

/-- The value of a decimal digit. -/
def digitValue (c : Char) : Option Nat :=
  if c.isDigit then some (c.toNat - 48) else none

/-- The wall-clock seconds, since January 1 of year 1, of midnight of the date
written `YYYY-MM-DD`; `none` when the text is not such a date. -/
def parseDate (value : String) : Option Int :=
  match value.toList with
  | [y1, y2, y3, y4, s1, m1, m2, s2, d1, d2] =>
    match digitValue y1, digitValue y2, digitValue y3, digitValue y4,
        digitValue m1, digitValue m2, digitValue d1, digitValue d2 with
    | some a, some b, some c, some d, some e, some f, some g, some i =>
      let y : Int := ((1000 * a + 100 * b + 10 * c + d : Nat) : Int)
      let m := 10 * e + f
      let dd := 10 * g + i
      if s1 == '-' && s2 == '-' && 1 ≤ m && m ≤ 12 && 1 ≤ dd && dd ≤ daysIn y m then
        some ((daysBeforeYear y + ((daysBeforeMonth y m + (dd - 1) : Nat) : Int)) * 86400)
      else none
    | _, _, _, _, _, _, _, _ => none
  | _ => none

/-- The error of the reference instance for a text that does not parse. -/
def parseError (layout value : String) : GoError :=
  { msg := "parsing time " ++ value ++ " as " ++ layout }

/-- The year, month and day of a time on the clock of its location. -/
def Time.Date (t : Time) : Int × Nat × Nat :=
  let z : Int := t.wallSeconds / 86400 + 306
  let era : Int := z / 146097
  let doe : Nat := (z % 146097).toNat
  let yoe : Nat := (doe - doe / 1460 + doe / 36524 - doe / 146096) / 365
  let doy : Nat := doe - (365 * yoe + yoe / 4 - yoe / 100)
  let mp : Nat := (5 * doy + 2) / 153
  let d : Nat := doy - (153 * mp + 2) / 5 + 1
  let m : Nat := if mp < 10 then mp + 3 else mp - 9
  let y : Int := (yoe : Int) + era * 400
  (if m ≤ 2 then y + 1 else y, m, d)

/-- The instant of the wall-clock reading `wall` in a location, the way
`time.Date` finds it: look the offset up at `wall` taken as an instant; when
the instant this gives lies outside the period of that offset, look the offset
up again at that instant. -/
def Location.instantOfWall (l : Location) (wall : Int) : Int :=
  let r := l.lookup wall
  if r.1 = 0 then wall
  else
    let utc := wall - r.1
    let afterStart : Bool := match r.2.1 with
      | none => true
      | some start => decide (start ≤ utc)
    let beforeEnd : Bool := match r.2.2 with
      | none => true
      | some stop => decide (utc < stop)
    if afterStart && beforeEnd then utc else wall - (l.lookup utc).1

/-- The reference instance: a date of layout `"2006-01-02"` is read as midnight
UTC by `Parse` and as midnight on the clock of the location by
`ParseInLocation`; any other input is an error with the zero time. -/
def dateLib : TimeLib where
  Parse := fun layout value =>
    if layout = "2006-01-02" then
      match parseDate value with
      | some w => ({ sec := w, nsec := 0, loc := none }, none)
      | none => (Time.zero, some (parseError layout value))
    else (Time.zero, some (parseError layout value))
  ParseInLocation := fun layout value loc =>
    if layout = "2006-01-02" then
      match parseDate value with
      | some w => ({ sec := loc.instantOfWall w, nsec := 0, loc := some loc }, none)
      | none => (Time.zero, some (parseError layout value))
    else (Time.zero, some (parseError layout value))
  Sprintv := fun t => toString t.sec ++ "." ++ toString t.nsec

/-- The heap before anything is allocated. -/
def Heap.empty : Heap where
  times := fun _ => Time.zero
  values := fun _ => { timestamp := none, hasBeenSet := false, layout := "", location := none }
  nextTime := 0
  nextValue := 0

/-- The heap right after `Create` on the empty heap for a flag of layout
`"2006-01-02"` without timezone, default the zero time, destination cell 0: the
object is at address 0. -/
def startHeap : Heap :=
  ((Heap.empty.writeTime 0 Time.zero).allocValue
    { timestamp := some 0, hasBeenSet := false, layout := "2006-01-02", location := none }).1

/-- The flag `"start"` holding the timestamp object at address 0. -/
def startFlag : Flag :=
  { Name := "start", Usage := "", Value := Value.timestampValue (some 0), DefValue := "" }

/-- The flag `"start"` declared as a flag of another kind. -/
def otherKindFlag : Flag :=
  { Name := "start", Usage := "", Value := Value.other "string", DefValue := "" }

/-- A flag set whose only flag is `fl`, under the name `"start"`. -/
def startFlagSet (fl : Flag) : FlagSet where
  formal := fun n => if n = "start" then some fl else none

/-- A command that resolves the name `"start"` to the flag set holding `fl`
and no other name. -/
def startCommand (fl : Flag) : Command where
  Name := "app"
  lookupFlagSet := fun name => if name = "start" then some (startFlagSet fl) else none

/-- The fixed zone `CET`, one hour east of UTC. -/
def zoneCET : Location := { name := "CET", offset := 3600, tx := [] }

/-- The fixed zone `WAT`, one hour east of UTC. -/
def zoneWAT : Location := { name := "WAT", offset := 3600, tx := [] }

/-- The fixed zone `EST`, five hours west of UTC. -/
def zoneEST : Location := { name := "EST", offset := -18000, tx := [] }

/-- The zone `Europe/London` around 2023: UTC until 2023-03-26 01:00 UTC, one
hour east until 2023-10-29 01:00 UTC, UTC afterwards. -/
def zoneLondon : Location :=
  { name := "Europe/London", offset := 0,
    tx := [(63815389200, 3600), (63834138000, 0)] }

/-- Two timestamp objects of layout `"2006-01-02"` on the empty heap: object 0
with cell 0 and zone `loc1`, object 1 with cell 1 and zone `loc2`. -/
def twoZoneHeap (loc1 loc2 : Location) : Heap :=
  ((Heap.empty.allocValue
      { timestamp := some 0, hasBeenSet := false, layout := "2006-01-02",
        location := some loc1 }).1.allocValue
    { timestamp := some 1, hasBeenSet := false, layout := "2006-01-02",
      location := some loc2 }).1

/-! ## Theorems -/

/-- A `Set` call whose reference parse reports an error returns it and keeps
the heap. -/
theorem Set_of_error (lib : TimeLib) (h : Heap) (a : Addr) (s : String) (e : GoError)
    (hfail : (referenceParse lib (h.values a).layout (h.values a).location s).2 = some e) :
    timestampValue.Set lib h (some a) s = .ok (h, some e) := by
  unfold referenceParse at hfail
  simp only [timestampValue.Set, hfail]

/-- A `Set` call whose reference parse reports no error stores the parsed time
in the cell, when there is one, and marks the object as set. -/
theorem Set_of_ok (lib : TimeLib) (h : Heap) (a : Addr) (s : String)
    (hok : (referenceParse lib (h.values a).layout (h.values a).location s).2 = none) :
    timestampValue.Set lib h (some a) s =
      .ok ((match (h.values a).timestamp with
            | some cell => h.writeTime cell
                (referenceParse lib (h.values a).layout (h.values a).location s).1
            | none => h).writeValue a { h.values a with hasBeenSet := true }, none) := by
  unfold referenceParse at hok ⊢
  simp only [timestampValue.Set, hok]
  cases hc : (h.values a).timestamp <;> simp [hc, Heap.writeTime]

/-- The last parsed text of `s :: rest` is that of `rest`, starting from the
parse of `s` when `s` parses. -/
theorem lastParsed_cons (lib : TimeLib) (layout : String) (location : Option Location)
    (d : Time) (s : String) (rest : List String) :
    lastParsed lib layout location d (s :: rest) =
      lastParsed lib layout location
        (if parses lib layout location s then (referenceParse lib layout location s).1 else d)
        rest := by
  unfold lastParsed
  rw [List.reverse_cons, List.find?_append]
  cases hr : rest.reverse.find? (parses lib layout location) with
  | some x => simp
  | none =>
    cases hs : parses lib layout location s <;> simp [List.find?, hs]

/-- What a sequence of `Set` calls does to an object `tv` stored at `a`: every
call returns the error of the reference parse of its text, the object only
gains `hasBeenSet` (when some text parses), and its cell, when it has one, ends
with the last parsed text. -/
theorem SetAll_spec (lib : TimeLib) (a : Addr) (texts : List String) :
    ∀ (h : Heap) (tv : timestampValue), h.values a = tv →
      ∃ h2 : Heap,
        SetAll lib h (some a) texts =
          .ok (h2, texts.map (fun s => (referenceParse lib tv.layout tv.location s).2)) ∧
        h2.values a =
          { tv with hasBeenSet := tv.hasBeenSet || texts.any (parses lib tv.layout tv.location) } ∧
        ∀ p, tv.timestamp = some p →
          h2.times p = lastParsed lib tv.layout tv.location (h.times p) texts := by
  induction texts with
  | nil =>
    intro h tv hv
    exact ⟨h, rfl, by simp [hv], fun p _ => rfl⟩
  | cons s rest ih =>
    intro h tv hv
    cases he : (referenceParse lib tv.layout tv.location s).2 with
    | some e =>
      have hs : parses lib tv.layout tv.location s = false := by simp [parses, he]
      obtain ⟨h2, hrun, hobj, hcell⟩ := ih h tv hv
      refine ⟨h2, ?_, ?_, ?_⟩
      · have hset := Set_of_error lib h a s e (by rw [hv]; exact he)
        simp only [SetAll, hset, hrun, List.map_cons, he]
      · simp [hobj, hs]
      · intro p hp
        rw [lastParsed_cons, hs]
        simpa using hcell p hp
    | none =>
      have hs : parses lib tv.layout tv.location s = true := by simp [parses, he]
      have hset := Set_of_ok lib h a s (by rw [hv]; exact he)
      rw [hv] at hset
      obtain ⟨h2, hrun, hobj, hcell⟩ := ih
        ((match tv.timestamp with
          | some cell => h.writeTime cell (referenceParse lib tv.layout tv.location s).1
          | none => h).writeValue a { tv with hasBeenSet := true })
        { tv with hasBeenSet := true } (by simp [Heap.writeValue])
      refine ⟨h2, ?_, ?_, ?_⟩
      · simp only [SetAll, hset, hrun, List.map_cons, he]
      · simp [hobj, hs]
      · intro p hp
        rw [lastParsed_cons, hs]
        have := hcell p hp
        simpa [hp, Heap.writeValue, Heap.writeTime] using this

/-- A successful `Set` on an object with a cell: the state after the call. -/
theorem Set_success_stores_parse_aux (lib : TimeLib) (h : Heap) (a p : Addr)
    (s : String) (hcell : (h.values a).timestamp = some p)
    (hok : (referenceParse lib (h.values a).layout (h.values a).location s).2 = none) :
    ∃ h2 : Heap, timestampValue.Set lib h (some a) s = .ok (h2, none) ∧
      (h2.values a).hasBeenSet = true ∧
      timestampValue.Get h2 (some a) =
        .ok (referenceParse lib (h.values a).layout (h.values a).location s).1 ∧
      h2.times p = (referenceParse lib (h.values a).layout (h.values a).location s).1 ∧
      (h2.values a).timestamp = some p ∧
      (h2.values a).layout = (h.values a).layout ∧
      (h2.values a).location = (h.values a).location := by
  refine ⟨_, Set_of_ok lib h a s hok, ?_⟩
  simp [hcell, timestampValue.Get, Heap.writeValue, Heap.writeTime]

/-- The heap and the object that `Create` returns on a destination cell. -/
theorem Create_spec (i : timestampValue) (h : Heap) (d : Time) (p : Addr)
    (c : TimestampConfig) :
    ∃ (h1 : Heap) (a : Addr),
      timestampValue.Create i h d (some p) c = .ok (h1, Value.timestampValue (some a)) ∧
      h1.times = Function.update h.times p d ∧
      h1.times p = d ∧
      h1.values a =
        { timestamp := some p, hasBeenSet := false, layout := c.Layout,
          location := c.Timezone } ∧
      timestampValue.Value h1 (some a) = .ok (some p) ∧
      timestampValue.Get h1 (some a) = .ok d := by
  refine ⟨_, h.nextValue, rfl, ?_⟩
  simp [Heap.allocValue, Heap.writeTime, timestampValue.Value, timestampValue.Get]

/-- C1: when the parse of `s` against the object's layout (in its location when
one is set) fails, `Set(s)` returns that error and the heap after the call is
the heap before it: the destination cell, `hasBeenSet`, `layout` and `location`
are untouched. -/
theorem Set_failure_leaves_state_unchanged (lib : TimeLib) (h : Heap) (a : Addr) (s : String)
    (e : GoError)
    (hfail : (referenceParse lib (h.values a).layout (h.values a).location s).2 = some e) :
    timestampValue.Set lib h (some a) s = .ok (h, some e) := by
  unfold referenceParse at hfail
  unfold timestampValue.Set
  simp only [hfail]

/-- Witness of C1 on the text `"not-a-date"` for the layout `"2006-01-02"`. -/
theorem Set_failure_leaves_state_unchanged_witness :
    (referenceParse dateLib (startHeap.values 0).layout (startHeap.values 0).location
        "not-a-date").2 = some (parseError "2006-01-02" "not-a-date") ∧
      timestampValue.Set dateLib startHeap (some 0) "not-a-date" =
        .ok (startHeap, some (parseError "2006-01-02" "not-a-date")) :=
  ⟨by decide,
    Set_failure_leaves_state_unchanged dateLib startHeap 0 "not-a-date"
      (parseError "2006-01-02" "not-a-date") (by decide)⟩

/-- C2: for an object with a destination cell and a text that matches its
layout (the reference parse reports no error), `Set` returns no error, leaves
the object set, and afterwards `Get` and the destination cell give the time of
the reference parse; the cell pointer, layout and location are as before. -/
theorem Set_success_stores_reference_parse (lib : TimeLib) (h : Heap) (a p : Addr)
    (s : String) (hcell : (h.values a).timestamp = some p)
    (hok : (referenceParse lib (h.values a).layout (h.values a).location s).2 = none) :
    ∃ h2 : Heap, timestampValue.Set lib h (some a) s = .ok (h2, none) ∧
      (h2.values a).hasBeenSet = true ∧
      timestampValue.Get h2 (some a) =
        .ok (referenceParse lib (h.values a).layout (h.values a).location s).1 ∧
      h2.times p = (referenceParse lib (h.values a).layout (h.values a).location s).1 ∧
      (h2.values a).timestamp = some p ∧
      (h2.values a).layout = (h.values a).layout ∧
      (h2.values a).location = (h.values a).location := by
  refine ⟨_, Set_of_ok lib h a s hok, ?_⟩
  simp only [hcell, Heap.writeValue, Heap.writeTime, timestampValue.Get,
    Function.update_same, and_self]

/-- Witness of C2 on the text `"2023-06-15"` for the layout `"2006-01-02"`. -/
theorem Set_success_stores_reference_parse_witness :
    ∃ h2 : Heap, timestampValue.Set dateLib startHeap (some 0) "2023-06-15" = .ok (h2, none) ∧
      (h2.values 0).hasBeenSet = true ∧
      timestampValue.Get h2 (some 0) =
        .ok { sec := 63822384000, nsec := 0, loc := none } ∧
      h2.times 0 = { sec := 63822384000, nsec := 0, loc := none } ∧
      (h2.values 0).timestamp = some 0 ∧
      (h2.values 0).layout = "2006-01-02" ∧
      (h2.values 0).location = none :=
  Set_success_stores_reference_parse dateLib startHeap 0 0 "2023-06-15" (by decide) (by decide)

/-- C3: `Create(d, p, c)` on a destination cell `p` writes `d` into `p` and
nothing else into the time store, and returns a new object that owns `p`,
has the layout and timezone of `c` and `hasBeenSet = false`; reading the cell,
or calling `Get`, before any `Set` gives exactly `d`. -/
theorem Create_writes_default (i : timestampValue) (h : Heap) (d : Time) (p : Addr)
    (c : TimestampConfig) :
    ∃ (h1 : Heap) (a : Addr),
      timestampValue.Create i h d (some p) c = .ok (h1, Value.timestampValue (some a)) ∧
      h1.times = Function.update h.times p d ∧
      h1.times p = d ∧
      h1.values a =
        { timestamp := some p, hasBeenSet := false, layout := c.Layout,
          location := c.Timezone } ∧
      timestampValue.Value h1 (some a) = .ok (some p) ∧
      timestampValue.Get h1 (some a) = .ok d := by
  refine ⟨(h.writeTime p d).allocValue
      { timestamp := some p, hasBeenSet := false, layout := c.Layout,
        location := c.Timezone } |>.1, h.nextValue, rfl, rfl, ?_, ?_, ?_, ?_⟩
  · simp only [Heap.allocValue, Heap.writeTime, Function.update_same]
  · simp only [Heap.allocValue, Heap.writeTime, Function.update_same]
  · simp only [timestampValue.Value, Heap.allocValue, Heap.writeTime, Function.update_same]
  · simp only [timestampValue.Get, Heap.allocValue, Heap.writeTime, Function.update_same]

/-- C7: the error returned by `Set` is exactly the error component of the
primitive it calls, `time.ParseInLocation` when the object has a location and
`time.Parse` otherwise, for every layout (the empty one included) and every
text: `Set` fails exactly when the primitive does, with the same error. -/
theorem Set_returns_primitive_error (lib : TimeLib) (h : Heap) (a : Addr) (s : String) :
    ∃ h2 : Heap, timestampValue.Set lib h (some a) s =
      .ok (h2, match (h.values a).location with
        | some loc => (lib.ParseInLocation (h.values a).layout s loc).2
        | none => (lib.Parse (h.values a).layout s).2) := by
  have hm : (match (h.values a).location with
      | some loc => (lib.ParseInLocation (h.values a).layout s loc).2
      | none => (lib.Parse (h.values a).layout s).2) =
      (referenceParse lib (h.values a).layout (h.values a).location s).2 := by
    unfold referenceParse
    cases (h.values a).location <;> rfl
  rw [hm]
  cases he : (referenceParse lib (h.values a).layout (h.values a).location s).2 with
  | none => exact ⟨_, Set_of_ok lib h a s he⟩
  | some e => exact ⟨h, Set_of_error lib h a s e he⟩

/-- C8: `ToString` of the zero-value timestamp is the empty text, for every
receiver and every rendering primitive, and so is `ToString` of the zero
instant carried in any location. -/
theorem ToString_zero_is_empty (lib : TimeLib) (i : timestampValue) :
    timestampValue.ToString lib i Time.zero = "" ∧
      ∀ l : Option Location,
        timestampValue.ToString lib i { sec := 0, nsec := 0, loc := l } = "" := by
  constructor
  · simp [timestampValue.ToString, Time.IsZero, Time.zero]
  · intro l
    simp [timestampValue.ToString, Time.IsZero]

/-- C4: after `Create(d, p, c)` and any finite sequence of `Set` calls on the
returned object, each call returns the error of the reference parse of its
text, the destination cell holds the parse result of the last text that parsed,
or `d` when none did, and `hasBeenSet` is true exactly when at least one call
returned no error. -/
theorem last_successful_Set_wins (lib : TimeLib) (i : timestampValue) (h : Heap) (d : Time)
    (p : Addr) (c : TimestampConfig) (texts : List String) :
    ∃ (h1 : Heap) (a : Addr) (h2 : Heap) (errs : List (Option GoError)),
      timestampValue.Create i h d (some p) c = .ok (h1, Value.timestampValue (some a)) ∧
      SetAll lib h1 (some a) texts = .ok (h2, errs) ∧
      errs = texts.map (fun s => (referenceParse lib c.Layout c.Timezone s).2) ∧
      h2.times p = lastParsed lib c.Layout c.Timezone d texts ∧
      timestampValue.Get h2 (some a) = .ok (lastParsed lib c.Layout c.Timezone d texts) ∧
      (h2.values a).hasBeenSet = errs.any (fun e => e.isNone) := by
  obtain ⟨h1, a, hcreate, -, hcell, hobj, -, -⟩ := Create_spec i h d p c
  obtain ⟨h2, hrun, hobj2, hcell2⟩ := SetAll_spec lib a texts h1 _ hobj
  have hp := hcell2 p rfl
  simp only [hcell] at hp
  refine ⟨h1, a, h2, _, hcreate, hrun, rfl, hp, ?_, ?_⟩
  · simp [timestampValue.Get, hobj2, hp]
  · simp only [hobj2, Bool.false_or]
    clear hrun hobj2 hcell2 hp
    induction texts with
    | nil => rfl
    | cons s rest ih => simp [ih, parses]

/-- C5: `Command.Timestamp(name)` returns nil, and does not fail, in each miss
case: the name resolves to no flag set, the resolved flag set has no flag under
the name, or the flag under the name holds a value that is not a
`*timestampValue`. -/
theorem Timestamp_miss_returns_nil (cmd : Command) (h : Heap) (name : String)
    (hmiss : cmd.lookupFlagSet name = none ∨
      (∃ fs, cmd.lookupFlagSet name = some fs ∧ fs.Lookup name = none) ∨
      (∃ fs fl, cmd.lookupFlagSet name = some fs ∧ fs.Lookup name = some fl ∧
        ∀ t, fl.Value ≠ Value.timestampValue t)) :
    ∃ tr : List TraceEvent, Command.Timestamp cmd h name = .ok (none, tr) := by
  rcases hmiss with hnone | ⟨fs, hfs, hfl⟩ | ⟨fs, fl, hfs, hfl, hkind⟩
  · exact ⟨[], by simp [Command.Timestamp, hnone]⟩
  · exact ⟨[TraceEvent.notAvailable name cmd.Name],
      by simp only [Command.Timestamp, hfs, lookupTimestamp, hfl]⟩
  · refine ⟨[TraceEvent.notAvailable name cmd.Name], ?_⟩
    cases hv : fl.Value with
    | nil => simp only [Command.Timestamp, hfs, lookupTimestamp, hfl, hv]
    | other k => simp only [Command.Timestamp, hfs, lookupTimestamp, hfl, hv]
    | timestampValue t => exact absurd hv (hkind t)

/-- Witness of C5: `"start"` registered as a flag of another kind, and a name
registered nowhere. -/
theorem Timestamp_miss_returns_nil_witness :
    (∃ tr : List TraceEvent,
        Command.Timestamp (startCommand otherKindFlag) startHeap "start" = .ok (none, tr)) ∧
      (∃ tr : List TraceEvent,
        Command.Timestamp (startCommand otherKindFlag) startHeap "end" = .ok (none, tr)) :=
  ⟨Timestamp_miss_returns_nil (startCommand otherKindFlag) startHeap "start"
      (Or.inr (Or.inr ⟨_, _, rfl, rfl, by intro t ht; cases ht⟩)),
    Timestamp_miss_returns_nil (startCommand otherKindFlag) startHeap "end" (Or.inl rfl)⟩

/-- C6: when the name resolves to a flag set in which it is registered with
the timestamp object that `Create(d, p, c)` returned, `Command.Timestamp(name)`
returns that object's destination cell pointer in every heap; after any
sequence of `Set` calls it returns `p`, and the time read through it is the
parse result of the last text that parsed, or the default `d` when none did. -/
theorem Timestamp_returns_owned_cell (lib : TimeLib) (cmd : Command) (name : String)
    (fs : FlagSet) (fl : Flag) (i : timestampValue) (h : Heap) (d : Time) (p : Addr)
    (c : TimestampConfig) (h1 : Heap) (texts : List String)
    (hfs : cmd.lookupFlagSet name = some fs) (hfl : fs.Lookup name = some fl)
    (hcreate : timestampValue.Create i h d (some p) c = .ok (h1, fl.Value)) :
    ∃ (a : Addr) (h2 : Heap) (errs : List (Option GoError)),
      fl.Value = Value.timestampValue (some a) ∧
      (∀ h3 : Heap, Command.Timestamp cmd h3 name =
        .ok ((h3.values a).timestamp,
          [TraceEvent.available name (h3.values a).timestamp cmd.Name])) ∧
      SetAll lib h1 (some a) texts = .ok (h2, errs) ∧
      Command.Timestamp cmd h2 name =
        .ok (some p, [TraceEvent.available name (some p) cmd.Name]) ∧
      h2.times p = lastParsed lib c.Layout c.Timezone d texts := by
  obtain ⟨h1x, a, hcreate2, -, hcell, hobj, -, -⟩ := Create_spec i h d p c
  rw [hcreate2] at hcreate
  injection hcreate with hpair
  injection hpair with hheap hval
  subst hheap
  obtain ⟨h2, hrun, hobj2, hcell2⟩ := SetAll_spec lib a texts h1x _ hobj
  have hp := hcell2 p rfl
  simp only [hcell] at hp
  have hlook : ∀ h3 : Heap, Command.Timestamp cmd h3 name =
      .ok ((h3.values a).timestamp,
        [TraceEvent.available name (h3.values a).timestamp cmd.Name]) := by
    intro h3
    simp only [Command.Timestamp, hfs, lookupTimestamp, hfl, ← hval, timestampValue.Value]
  refine ⟨a, h2, _, hval.symm, hlook, hrun, ?_, hp⟩
  rw [hlook h2, hobj2]

/-- Witness of C6: the flag `"start"` of layout `"2006-01-02"` without timezone
and with the zero default. After `Set("2023-06-15")` the time read through
`Timestamp("start")` has year, month and day 2023, 6, 15; after only the failed
`Set("not-a-date")` it is the zero default. -/
theorem Timestamp_returns_owned_cell_witness :
    (∃ (h2 : Heap) (errs : List (Option GoError)),
        SetAll dateLib startHeap (some 0) ["2023-06-15"] = .ok (h2, errs) ∧
        Command.Timestamp (startCommand startFlag) h2 "start" =
          .ok (some 0, [TraceEvent.available "start" (some 0) "app"]) ∧
        (h2.times 0).Date = (2023, 6, 15)) ∧
      (∃ (h2 : Heap) (errs : List (Option GoError)),
        SetAll dateLib startHeap (some 0) ["not-a-date"] = .ok (h2, errs) ∧
        Command.Timestamp (startCommand startFlag) h2 "start" =
          .ok (some 0, [TraceEvent.available "start" (some 0) "app"]) ∧
        h2.times 0 = Time.zero) := by
  constructor
  · obtain ⟨a, h2, errs, hv, -, hrun, hts, hcell⟩ :=
      Timestamp_returns_owned_cell dateLib (startCommand startFlag) "start"
        (startFlagSet startFlag) startFlag
        { timestamp := none, hasBeenSet := false, layout := "", location := none }
        Heap.empty Time.zero 0 { Timezone := none, Layout := "2006-01-02" } startHeap
        ["2023-06-15"] rfl rfl rfl
    have ha : a = 0 := by
      simp only [startFlag, Value.timestampValue.injEq, Option.some.injEq] at hv
      exact hv.symm
    subst ha
    exact ⟨h2, errs, hrun, hts, by rw [hcell]; decide⟩
  · obtain ⟨a, h2, errs, hv, -, hrun, hts, hcell⟩ :=
      Timestamp_returns_owned_cell dateLib (startCommand startFlag) "start"
        (startFlagSet startFlag) startFlag
        { timestamp := none, hasBeenSet := false, layout := "", location := none }
        Heap.empty Time.zero 0 { Timezone := none, Layout := "2006-01-02" } startHeap
        ["not-a-date"] rfl rfl rfl
    have ha : a = 0 := by
      simp only [startFlag, Value.timestampValue.injEq, Option.some.injEq] at hv
      exact hv.symm
    subst ha
    exact ⟨h2, errs, hrun, hts, by rw [hcell]; decide⟩

/-- C9: `Get` on an object returns the content of its destination cell when it
has one and panics exactly when the cell pointer is nil; an object built by
`Create` on a cell, or by `newTimestamp`, keeps its cell pointer through any
sequence of `Set` calls, so `Get` on it returns the content of that cell. -/
theorem Get_panics_only_on_nil_cell (lib : TimeLib) (h : Heap) (a : Addr) :
    (∀ p, (h.values a).timestamp = some p → timestampValue.Get h (some a) = .ok (h.times p)) ∧
    (timestampValue.Get h (some a) = .error Panic.nilDereference ↔
      (h.values a).timestamp = none) ∧
    (∀ (i : timestampValue) (d : Time) (p : Addr) (c : TimestampConfig) (texts : List String),
      ∃ (h1 : Heap) (b : Addr) (h2 : Heap) (errs : List (Option GoError)),
        timestampValue.Create i h d (some p) c = .ok (h1, Value.timestampValue (some b)) ∧
        SetAll lib h1 (some b) texts = .ok (h2, errs) ∧
        (h2.values b).timestamp = some p ∧
        timestampValue.Get h2 (some b) = .ok (h2.times p)) ∧
    (∀ (t : Time) (texts : List String),
      ∃ (b : Addr) (h2 : Heap) (errs : List (Option GoError)),
        (newTimestamp h t).2 = some b ∧
        timestampValue.Get (newTimestamp h t).1 (some b) = .ok t ∧
        SetAll lib (newTimestamp h t).1 (some b) texts = .ok (h2, errs) ∧
        (h2.values b).timestamp = some h.nextTime ∧
        timestampValue.Get h2 (some b) = .ok (h2.times h.nextTime)) := by
  refine ⟨?_, ?_, ?_, ?_⟩
  · intro p hp
    simp [timestampValue.Get, hp]
  · cases hc : (h.values a).timestamp <;> simp [timestampValue.Get, hc]
  · intro i d p c texts
    obtain ⟨h1, b, hcreate, -, -, hobj, -, -⟩ := Create_spec i h d p c
    obtain ⟨h2, hrun, hobj2, -⟩ := SetAll_spec lib b texts h1 _ hobj
    exact ⟨h1, b, h2, _, hcreate, hrun, by rw [hobj2], by simp [timestampValue.Get, hobj2]⟩
  · intro t texts
    have hobj : (newTimestamp h t).1.values h.nextValue =
        { timestamp := some h.nextTime, hasBeenSet := false, layout := "", location := none } := by
      simp [newTimestamp, Heap.allocValue, Heap.allocTime]
    obtain ⟨h2, hrun, hobj2, -⟩ := SetAll_spec lib h.nextValue texts _ _ hobj
    refine ⟨h.nextValue, h2, _, rfl, ?_, hrun, by rw [hobj2], by simp [timestampValue.Get, hobj2]⟩
    simp [timestampValue.Get, newTimestamp, Heap.allocValue, Heap.allocTime]

/-- Witness of C9: on the heap right after `Create`, object 0 has cell 0 and
`Get` reads it; object 5 was never built, has a nil cell, and `Get` panics. -/
theorem Get_panics_only_on_nil_cell_witness :
    timestampValue.Get startHeap (some 0) = .ok (startHeap.times 0) ∧
      timestampValue.Get startHeap (some 5) = .error Panic.nilDereference :=
  ⟨(Get_panics_only_on_nil_cell dateLib startHeap 0).1 0 (by decide),
    (Get_panics_only_on_nil_cell dateLib startHeap 5).2.1.mpr (by decide)⟩

/-- C10 as stated fails: the date `"2023-06-15"` of the zone-free layout
`"2006-01-02"` set on two objects whose timezones differ (`CET` and `WAT`) but
have the same offset stores the same absolute instant in both cells, with the
same wall-clock fields. -/
theorem same_offset_zones_store_same_instant :
    zoneCET ≠ zoneWAT ∧
    ∃ (h1 h2 : Heap),
      timestampValue.Set dateLib (twoZoneHeap zoneCET zoneWAT) (some 0) "2023-06-15" =
        .ok (h1, none) ∧
      timestampValue.Set dateLib h1 (some 1) "2023-06-15" = .ok (h2, none) ∧
      h2.times 0 = Time.mk 63822380400 0 (some zoneCET) ∧
      h2.times 1 = Time.mk 63822380400 0 (some zoneWAT) ∧
      Time.sameWallClock (h2.times 0) (h2.times 1) = true ∧
      Time.Equal (h2.times 0) (h2.times 1) = true := by
  refine ⟨by decide, _, _,
    Set_of_ok dateLib (twoZoneHeap zoneCET zoneWAT) 0 "2023-06-15" (by decide),
    Set_of_ok dateLib _ 1 "2023-06-15" (by decide), ?_, ?_, ?_, ?_⟩ <;> decide

/-- C10, amended: for every layout and every text that `time.ParseInLocation`
accepts in both timezones, `Set` on two objects of that layout configured with
the two timezones, one call after the other, stores in each object's cell
exactly the time `time.ParseInLocation` returns for that object's timezone,
and the second call leaves a distinct first cell as it is; so the two stored
times are the same instant, and have the same wall-clock fields, exactly when
the two results of the primitive are and do. -/
theorem zone_aware_Set_stores_ParseInLocation (lib : TimeLib) (layout s : String) (h : Heap)
    (a1 a2 p1 p2 : Addr) (loc1 loc2 : Location)
    (hl1 : (h.values a1).layout = layout) (hz1 : (h.values a1).location = some loc1)
    (hc1 : (h.values a1).timestamp = some p1)
    (hl2 : (h.values a2).layout = layout) (hz2 : (h.values a2).location = some loc2)
    (hc2 : (h.values a2).timestamp = some p2)
    (hok1 : (lib.ParseInLocation layout s loc1).2 = none)
    (hok2 : (lib.ParseInLocation layout s loc2).2 = none) :
    ∃ (h1 h2 : Heap),
      timestampValue.Set lib h (some a1) s = .ok (h1, none) ∧
      timestampValue.Set lib h1 (some a2) s = .ok (h2, none) ∧
      h1.times p1 = (lib.ParseInLocation layout s loc1).1 ∧
      h2.times p2 = (lib.ParseInLocation layout s loc2).1 ∧
      (p1 ≠ p2 → h2.times p1 = (lib.ParseInLocation layout s loc1).1) ∧
      Time.Equal (h1.times p1) (h2.times p2) =
        Time.Equal (lib.ParseInLocation layout s loc1).1 (lib.ParseInLocation layout s loc2).1 ∧
      Time.sameWallClock (h1.times p1) (h2.times p2) =
        Time.sameWallClock (lib.ParseInLocation layout s loc1).1
          (lib.ParseInLocation layout s loc2).1 := by
  have hr1 : referenceParse lib (h.values a1).layout (h.values a1).location s =
      lib.ParseInLocation layout s loc1 := by
    rw [hl1, hz1]; rfl
  obtain ⟨h1, hs1, -, -, ht1, hts1, hlay1, hloc1⟩ :=
    Set_success_stores_parse_aux lib h a1 p1 s hc1 (by rw [hr1]; exact hok1)
  rw [hr1] at ht1
  -- the first call changes no layout, location or cell pointer
  have hobj : (h1.values a2).layout = layout ∧ (h1.values a2).location = some loc2 ∧
      (h1.values a2).timestamp = some p2 := by
    by_cases ha : a2 = a1
    · subst ha
      exact ⟨hlay1.trans hl2, hloc1.trans hz2, hts1.trans (hc1.symm.trans hc2)⟩
    · have hh1 := hs1
      rw [Set_of_ok lib h a1 s (by rw [hr1]; exact hok1)] at hh1
      injection hh1 with hh1
      injection hh1 with hheap
      subst hheap
      simp [hc1, Heap.writeValue, Heap.writeTime, Function.update_noteq ha, hl2, hz2, hc2]
  obtain ⟨hl2x, hz2x, hc2x⟩ := hobj
  have hr2 : referenceParse lib (h1.values a2).layout (h1.values a2).location s =
      lib.ParseInLocation layout s loc2 := by
    rw [hl2x, hz2x]; rfl
  have hok2x : (referenceParse lib (h1.values a2).layout (h1.values a2).location s).2 = none := by
    rw [hr2]; exact hok2
  obtain ⟨h2, hs2, -, -, ht2, -, -, -⟩ :=
    Set_success_stores_parse_aux lib h1 a2 p2 s hc2x hok2x
  rw [hr2] at ht2
  have hframe : p1 ≠ p2 → h2.times p1 = (lib.ParseInLocation layout s loc1).1 := by
    intro hne
    have hh2 := hs2
    rw [Set_of_ok lib h1 a2 s hok2x] at hh2
    injection hh2 with hh2
    injection hh2 with hheap
    subst hheap
    simp [hc2x, Heap.writeValue, Heap.writeTime, Function.update_noteq hne, ht1]
  exact ⟨h1, h2, hs1, hs2, ht1, ht2, hframe, by rw [ht1, ht2], by rw [ht1, ht2]⟩

/-- Witness of C10, amended: the date `"2023-06-15"` on two objects in the
zones `Europe/London`, which is one hour east of UTC on that day though not in
winter, and `EST`, five hours west: the cells hold midnight of that day on each
clock, six hours apart. -/
theorem zone_aware_Set_stores_ParseInLocation_witness :
    ∃ (h1 h2 : Heap),
      timestampValue.Set dateLib (twoZoneHeap zoneLondon zoneEST) (some 0) "2023-06-15" =
        .ok (h1, none) ∧
      timestampValue.Set dateLib h1 (some 1) "2023-06-15" = .ok (h2, none) ∧
      h1.times 0 = Time.mk 63822380400 0 (some zoneLondon) ∧
      h2.times 1 = Time.mk 63822402000 0 (some zoneEST) ∧
      ((0 : Addr) ≠ 1 → h2.times 0 = Time.mk 63822380400 0 (some zoneLondon)) ∧
      Time.Equal (h1.times 0) (h2.times 1) = false ∧
      Time.sameWallClock (h1.times 0) (h2.times 1) = true :=
  zone_aware_Set_stores_ParseInLocation dateLib "2006-01-02" "2023-06-15"
    (twoZoneHeap zoneLondon zoneEST) 0 1 0 1 zoneLondon zoneEST
    (by decide) (by decide) (by decide) (by decide) (by decide) (by decide)
    (by decide) (by decide)

end Cli
